import Mathlib

/-!
# Verification of the AI-in-medicine news aggregation pipeline

A shallow embedding of `data_fetcher.py` (repository `latest-medi-papers`).
Python strings are modelled as `List Char` (sequences of code points);
Python regex character classes `\d`, `\w`, `\s` are modelled over the ASCII
alphabet relevant to the data.  Fallible third-party calls are modelled as
`Option`-valued inputs (`none` = the call raised).  `pd.NaT` is `none`;
`pd.to_datetime`'s validity checks (calendar validity and the
`pandas.Timestamp` nanosecond bounds 1677-09-21T00:12…‥2262-04-11T23:47…,
hence 1677-09-22‥2262-04-11 for midnight values) are modelled explicitly.
-/

set_option maxRecDepth 4000

/-- Python `str` as a sequence of code points. -/
abbrev Str := List Char

/-- Convert a Lean string literal to the `Str` model. -/
def pstr (s : String) : Str := s.toList

/-! ## Character classes (ASCII model of Python `re` classes) -/

/-- Python regex `\d` (ASCII model). -/
def isDigitC (c : Char) : Bool := c.isDigit

/-- Python regex `\w` (ASCII model): alphanumeric or underscore. -/
def isWordC (c : Char) : Bool := c.isAlphanum || c == '_'

/-- Python regex `\s` (ASCII model): the six ASCII whitespace characters. -/
def isSpaceC (c : Char) : Bool :=
  c == ' ' || c == '\t' || c == '\n' || c == '\r' || c == '\x0b' || c == '\x0c'

/-! ## Calendar arithmetic (model of `datetime`/`pandas.Timestamp` dates) -/

/-- A calendar date (the value carried by a parsed `pandas` timestamp;
time-of-day is always midnight for dates produced by `extract_date`). -/
structure PDate where
  year : Nat
  month : Nat
  day : Nat
deriving DecidableEq, Repr

/-- Gregorian leap year. -/
def isLeap (y : Nat) : Bool := (y % 4 == 0 && y % 100 != 0) || y % 400 == 0

/-- Number of days of month `m` in year `y`. -/
def daysInMonth (y m : Nat) : Nat :=
  if m = 2 then (if isLeap y then 29 else 28)
  else if m = 4 ∨ m = 6 ∨ m = 9 ∨ m = 11 then 30
  else 31

/-- The triple `(y, m, d)` denotes a real calendar date. -/
def validYMD (y m d : Nat) : Bool :=
  1 ≤ m && m ≤ 12 && 1 ≤ d && d ≤ daysInMonth y m

/-- Cumulative day count before month `m` in a non-leap year. -/
def monthOffset (m : Nat) : Nat :=
  match m with
  | 1 => 0 | 2 => 31 | 3 => 59 | 4 => 90 | 5 => 120 | 6 => 151
  | 7 => 181 | 8 => 212 | 9 => 243 | 10 => 273 | 11 => 304 | _ => 334

/-- Day number of `(y,m,d)` within year `y` (1-based). -/
def dayOfYear (y m d : Nat) : Nat :=
  monthOffset m + (if 2 < m ∧ isLeap y then 1 else 0) + d

/-- Rata-die style day count: days elapsed since 0000-12-31 (proleptic
Gregorian).  Used as the total-order key on calendar dates, mirroring the
linear order on `pandas` timestamps. -/
def rataDie (dt : PDate) : Nat :=
  365 * (dt.year - 1) + (dt.year - 1) / 4 + (dt.year - 1) / 400
    + dayOfYear dt.year dt.month dt.day - (dt.year - 1) / 100

/-- Nanoseconds per day (`pandas` timestamps have nanosecond resolution). -/
def nsPerDay : Int := 86400000000000

/-- The instant (nanosecond key) of midnight of a calendar date. -/
def dateNs (dt : PDate) : Int := (rataDie dt : Int) * nsPerDay

/-- `pandas.Timestamp` can represent midnight of `dt`
(`pd.to_datetime` raises `OutOfBoundsDatetime` outside this range). -/
def inBounds (dt : PDate) : Bool :=
  rataDie ⟨1677, 9, 22⟩ ≤ rataDie dt && rataDie dt ≤ rataDie ⟨2262, 4, 11⟩

/-! ## `extract_date` (the Date Normalizer)

Model of
```python
pattern1 = r'(?:\w+,\s+)?(\d{1,2}\s+\w{3}\s+\d{4})'
match = re.search(pattern1, date_str)
if match: return pd.to_datetime(match.group(1), format='%d %b %Y')
pattern2 = r'(\d{4}-\d{2}-\d{2})'
match = re.search(pattern2, date_str)
if match: return pd.to_datetime(match.group(1))
return pd.NaT
```
with the whole body wrapped in `try: … except: return pd.NaT`.
`re.search` is leftmost search with backtracking; for these patterns the
only live backtracking is "`\d{1,2}` takes two digits, else one" (taking
one digit after two are available always fails, since `\s+` must follow)
and "try the optional `(?:\w+,\s+)?` prefix, else not". -/

/-- `\s+` at the head: requires at least one whitespace char, consumes the
maximal run (the following atom never matches whitespace, so maximal
consumption is exact). -/
def dropWs : Str → Option Str
  | [] => none
  | c :: cs => if isSpaceC c then some (cs.dropWhile isSpaceC) else none

/-- `p{n}` at the head: exactly `n` chars satisfying `p`; returns the
matched chars and the remainder. -/
def takeCount (p : Char → Bool) : Nat → Str → Option (Str × Str)
  | 0, cs => some ([], cs)
  | _ + 1, [] => none
  | n + 1, c :: cs =>
    if p c then (takeCount p n cs).map (fun t => (c :: t.1, t.2)) else none

/-- `\s+\w{3}\s+\d{4}` at the head: the part of the capture group after the
day digits; returns (month chars, year digits). -/
def matchTail (cs : Str) : Option (Str × Str) :=
  match dropWs cs with
  | none => none
  | some cs1 =>
    match takeCount isWordC 3 cs1 with
    | none => none
    | some (mon, cs2) =>
      match dropWs cs2 with
      | none => none
      | some cs3 =>
        match takeCount isDigitC 4 cs3 with
        | none => none
        | some (yr, _) => some (mon, yr)

/-- The capture group `\d{1,2}\s+\w{3}\s+\d{4}` at the head of the string;
returns (day digits, month chars, year digits).  When two day digits are
available but the tail fails, retrying with one day digit cannot succeed
(`\s+` would face a digit), so no alternative is tried. -/
def matchBody : Str → Option (Str × Str × Str)
  | [] => none
  | c1 :: cs =>
    if isDigitC c1 then
      match cs with
      | [] => none
      | c2 :: cs2 =>
        if isDigitC c2 then
          (matchTail cs2).map (fun t => ([c1, c2], t.1, t.2))
        else
          (matchTail cs).map (fun t => ([c1], t.1, t.2))
    else none

/-- The first alternative of pattern 1 at the current position: the greedy
optional prefix `\w+,\s+` (its `\w+` is the maximal word run — a shorter
run is followed by a word char, never by `,`), then the capture group. -/
def matchP1Prefix (cs : Str) : Option (Str × Str × Str) :=
  if (cs.takeWhile isWordC).isEmpty then none
  else
    match cs.dropWhile isWordC with
    | d :: rest =>
      if d = ',' then
        match dropWs rest with
        | some rest' => matchBody rest'
        | none => none
      else none
    | [] => none

/-- Pattern 1 anchored at the current position: the greedy optional prefix
alternative first, then the bare capture group at the same position. -/
def matchP1At (cs : Str) : Option (Str × Str × Str) :=
  (matchP1Prefix cs).orElse (fun _ => matchBody cs)

/-- `re.search` of pattern 1: leftmost position whose anchored match
succeeds; yields the capture group of that match. -/
def searchP1 : Str → Option (Str × Str × Str)
  | [] => none
  | c :: cs => (matchP1At (c :: cs)).orElse (fun _ => searchP1 cs)

/-- Pattern 2 `(\d{4}-\d{2}-\d{2})` anchored at the current position;
returns (year, month, day) digit strings. -/
def matchISOAt (cs : Str) : Option (Str × Str × Str) :=
  match takeCount isDigitC 4 cs with
  | none => none
  | some (y, r1) =>
    match r1 with
    | [] => none
    | d1 :: r2 =>
      if d1 = '-' then
        match takeCount isDigitC 2 r2 with
        | none => none
        | some (mo, r3) =>
          match r3 with
          | [] => none
          | d2 :: r4 =>
            if d2 = '-' then
              match takeCount isDigitC 2 r4 with
              | none => none
              | some (dy, _) => some (y, mo, dy)
            else none
      else none

/-- `re.search` of pattern 2: leftmost match. -/
def searchISO : Str → Option (Str × Str × Str)
  | [] => none
  | c :: cs => (matchISOAt (c :: cs)).orElse (fun _ => searchISO cs)

/-- Numeric value of a digit string. -/
def natOfDigits (ds : Str) : Nat :=
  ds.foldl (fun n c => 10 * n + (c.toNat - '0'.toNat)) 0

/-- `%b` month abbreviations of the C locale, lowercased (both CPython's
`_strptime` and pandas' strptime compare case-insensitively). -/
def monthAbbrevs : List (Str × Nat) :=
  [(pstr "jan", 1), (pstr "feb", 2), (pstr "mar", 3), (pstr "apr", 4),
   (pstr "may", 5), (pstr "jun", 6), (pstr "jul", 7), (pstr "aug", 8),
   (pstr "sep", 9), (pstr "oct", 10), (pstr "nov", 11), (pstr "dec", 12)]

/-- Parse a `%b` month token (case-insensitive). -/
def monthFromAbbrev (m : Str) : Option Nat :=
  (monthAbbrevs.find? (fun p => p.1 = m.map Char.toLower)).map (·.2)

/-- `pd.to_datetime(group, format='%d %b %Y')`, `none` = raised:
the month token must be a C-locale abbreviation, the day/month/year must
form a real calendar date, and the result must fit in a
`pandas.Timestamp`. -/
def parseRfcGroup (day mon yr : Str) : Option PDate :=
  match monthFromAbbrev mon with
  | none => none
  | some m =>
    let d := natOfDigits day
    let y := natOfDigits yr
    if validYMD y m d && inBounds ⟨y, m, d⟩ then some ⟨y, m, d⟩ else none

/-- `pd.to_datetime("<yyyy>-<mm>-<dd>")`, `none` = raised: month/day must
be calendar-valid and the result must fit in a `pandas.Timestamp`. -/
def parseIsoGroup (yr mo dy : Str) : Option PDate :=
  let y := natOfDigits yr
  let m := natOfDigits mo
  let d := natOfDigits dy
  if validYMD y m d && inBounds ⟨y, m, d⟩ then some ⟨y, m, d⟩ else none

/-- `extract_date`: pattern 1 is searched first; if it matches, its group
is parsed and any parse failure is the function's result (the enclosing
`except` returns `NaT` — pattern 2 is never consulted).  Only if pattern 1
matches nowhere is pattern 2 searched and parsed. -/
def extract_date (s : Str) : Option PDate :=
  match searchP1 s with
  | some (day, mon, yr) => parseRfcGroup day mon yr
  | none =>
    match searchISO s with
    | some (yr, mo, dy) => parseIsoGroup yr mo dy
    | none => none

/-! ## Text sanitizer (`clean_html`)

`BeautifulSoup(text, "html.parser").get_text()` is a third-party call; it
is modelled as an abstract function `getText? : Str → Option Str`
(`none` = the call raised, which the `except` turns into returning the
original text).  `clean_html` itself contains only the fallback logic and
the `.strip()`. -/

/-- Python `str.strip()` (ASCII-whitespace model). -/
def pyStrip (s : Str) : Str :=
  ((s.dropWhile isSpaceC).reverse.dropWhile isSpaceC).reverse

/-- `clean_html`: on parser success, the extracted text stripped of
surrounding whitespace; on any parser failure, the original text
unchanged. -/
def clean_html (getText? : Str → Option Str) (text : Str) : Str :=
  match getText? text with
  | some t => pyStrip t
  | none => text

/-- The per-record description transformation of `process_data`:
`clean_html(x)[:300] + '...' if len(clean_html(x)) > 300 else clean_html(x)`. -/
def truncDescription (getText? : Str → Option Str) (x : Str) : Str :=
  if 300 < (clean_html getText? x).length then
    (clean_html getText? x).take 300 ++ pstr "..."
  else clean_html getText? x

/-! ## Topic classifier -/

/-- `b.isPrefixOf`-style check: `needle` is a prefix of `hay`. -/
def isPrefixB : Str → Str → Bool
  | [], _ => true
  | _ :: _, [] => false
  | a :: as, b :: bs => a == b && isPrefixB as bs

/-- Python `needle in hay` substring containment. -/
def containsSub (hay needle : Str) : Bool :=
  match hay with
  | [] => needle.isEmpty
  | _ :: t => isPrefixB needle hay || containsSub t needle

/-- Python `str.lower()` (ASCII model). -/
def lowerS (s : Str) : Str := s.map Char.toLower

/-- The fixed topic list `MEDICAL_AI_TOPICS`. -/
def MEDICAL_AI_TOPICS : List Str :=
  [pstr "Medical Imaging", pstr "NLP in Healthcare",
   pstr "Clinical Decision Support", pstr "Drug Discovery",
   pstr "Predictive Analytics", pstr "Disease Diagnosis",
   pstr "Electronic Health Records", pstr "Personalized Medicine",
   pstr "Patient Monitoring", pstr "Genomics"]

/-- The fixed keyword taxonomy `TOPIC_KEYWORDS`. -/
def TOPIC_KEYWORDS : List (Str × List Str) :=
  [(pstr "Medical Imaging",
    [pstr "imaging", pstr "radiology", pstr "x-ray", pstr "mri",
     pstr "ct scan", pstr "ultrasound", pstr "image segmentation",
     pstr "image classification"]),
   (pstr "NLP in Healthcare",
    [pstr "nlp", pstr "natural language", pstr "text mining",
     pstr "medical notes", pstr "clinical notes", pstr "documentation",
     pstr "medical language"]),
   (pstr "Clinical Decision Support",
    [pstr "clinical decision", pstr "decision support", pstr "cdss",
     pstr "clinical workflow", pstr "physician", pstr "doctor",
     pstr "nurse", pstr "medical decision"]),
   (pstr "Drug Discovery",
    [pstr "drug discovery", pstr "pharmaceutical", pstr "molecule",
     pstr "compound", pstr "drug design", pstr "medicinal chemistry",
     pstr "therapeutics"]),
   (pstr "Predictive Analytics",
    [pstr "predict", pstr "forecasting", pstr "risk prediction",
     pstr "outcome prediction", pstr "patient outcome",
     pstr "mortality prediction", pstr "readmission"]),
   (pstr "Disease Diagnosis",
    [pstr "diagnosis", pstr "diagnostic", pstr "detection",
     pstr "screening", pstr "early detection",
     pstr "disease classification", pstr "pathology"]),
   (pstr "Electronic Health Records",
    [pstr "ehr", pstr "emr", pstr "electronic health record",
     pstr "electronic medical record", pstr "health record",
     pstr "patient record"]),
   (pstr "Personalized Medicine",
    [pstr "personalized", pstr "precision medicine",
     pstr "patient-specific", pstr "tailored",
     pstr "individualized care", pstr "custom treatment"]),
   (pstr "Patient Monitoring",
    [pstr "monitoring", pstr "wearable", pstr "sensor",
     pstr "remote monitoring", pstr "patient tracking",
     pstr "vital signs", pstr "telehealth"]),
   (pstr "Genomics",
    [pstr "genomic", pstr "gene", pstr "genetic", pstr "dna", pstr "rna",
     pstr "sequencing", pstr "genome", pstr "biomarker"])]

/-- The per-topic flag of `process_data`:
`any(keyword.lower() in (row['Title'].lower() + " " + row['Description'].lower()) for keyword in keywords)`. -/
def topicFlag (keywords : List Str) (title desc : Str) : Bool :=
  keywords.any (fun kw =>
    containsSub (lowerS title ++ ' ' :: lowerS desc) (lowerS kw))

/-! ## Source fetchers -/

/-- A `feedparser` entry: each field is `none` when the key is absent.
`contentValue?` models `entry.get("content", [{"value": ""}])[0].get("value", "")`
already collapsed to the string it yields. -/
structure FPEntry where
  title? : Option Str
  link? : Option Str
  published? : Option Str
  description? : Option Str
  summary? : Option Str
  contentValue? : Option Str
deriving DecidableEq, Repr

/-- A row of the raw record shape shared by both fetchers (the five
columns `Title`, `Link`, `Published`, `Description`, `Source`). -/
structure RawRecord where
  Title : Str
  Link : Str
  Published : Str
  Description : Str
  Source : Str
deriving DecidableEq, Repr

/-- The description fallback chain of `fetch_single_feed`:
`description`, else (falsy ⇒ empty) `summary`, else content value. -/
def entryDescription (e : FPEntry) : Str :=
  let d := e.description?.getD []
  if d ≠ [] then d
  else
    let s := e.summary?.getD []
    if s ≠ [] then s else e.contentValue?.getD []

/-- One record of `fetch_single_feed` for one feed entry. -/
def mkRssRecord (source : Str) (e : FPEntry) : RawRecord :=
  { Title := e.title?.getD (pstr "No Title")
    Link := e.link?.getD (pstr "No Link")
    Published := e.published?.getD (pstr "No Date")
    Description := entryDescription e
    Source := source }

/-- `fetch_single_feed`: `parsed = none` models `feedparser.parse`
raising — the `except` leaves the entries structure empty, so the feed
contributes zero records. -/
def fetch_single_feed (source : Str) (parsed : Option (List FPEntry)) :
    List RawRecord :=
  match parsed with
  | none => []
  | some es => es.map (mkRssRecord source)

/-- Python `s.replace("\n", " ")`. -/
def replaceNl (s : Str) : Str := s.map (fun c => if c == '\n' then ' ' else c)

/-- One record of `fetch_arxiv_papers` for one API entry: note the
defaults are empty strings, not placeholders, and the description comes
from `summary` alone. -/
def mkArxivRecord (e : FPEntry) : RawRecord :=
  { Title := replaceNl (e.title?.getD [])
    Link := e.link?.getD []
    Published := e.published?.getD []
    Description := replaceNl (e.summary?.getD [])
    Source := pstr "arXiv" }

/-- The rows of `fetch_arxiv_papers`: on failure (`none`) the function
returns `pd.DataFrame()`, i.e. zero rows (and no columns, see
`arxivCols`). -/
def fetch_arxiv_papers (parsed : Option (List FPEntry)) : List RawRecord :=
  match parsed with
  | none => []
  | some es => es.map mkArxivRecord

/-- The columns of the frame returned by `fetch_arxiv_papers`: the five
raw columns on success, none on failure (`pd.DataFrame()`). -/
def arxivCols (parsed : Option (List FPEntry)) : List Str :=
  match parsed with
  | none => []
  | some _ => rawCols
where
  /-- The five columns of the raw entries dictionaries. -/
  rawCols : List Str :=
    [pstr "Title", pstr "Link", pstr "Published", pstr "Description",
     pstr "Source"]

/-- The five raw columns (of `all_entries` and hence of `rss_df`). -/
abbrev rawCols := arxivCols.rawCols

/-- `pd.concat` column union: left frame's columns, then the right
frame's new ones. -/
def unionCols (a b : List Str) : List Str := a ++ b.filter (¬ a.contains ·)

/-! ## `process_data` -/

/-- A record after date extraction, `dropna`, description sanitization and
the drop of `Published` — the shape on which the sort operates. -/
structure ProcRecord where
  Title : Str
  Link : Str
  Description : Str
  Source : Str
  date : PDate
deriving DecidableEq, Repr

/-- A fully processed record (the ten topic flags appended). -/
structure NewsRecord where
  Title : Str
  Link : Str
  Description : Str
  Source : Str
  date : PDate
  topics : List (Str × Bool)
deriving DecidableEq, Repr

/-- A pandas `DataFrame` at the pipeline boundary: its column list and its
rows (rows are meaningful only for the fully processed shape; the empty
and error frames carry no rows). -/
structure PipeDF where
  cols : List Str
  rows : List NewsRecord
deriving DecidableEq, Repr

/-- The date-extraction + `dropna` + description-cleaning prefix of
`process_data`, per row: rows whose `Published` is unparseable are
dropped; survivors get the sanitized, truncated description and lose the
`Published` column. -/
def datedRows (getText? : Str → Option Str) (df : List RawRecord) :
    List ProcRecord :=
  df.filterMap (fun r =>
    (extract_date r.Published).map (fun dt =>
      { Title := r.Title
        Link := r.Link
        Description := truncDescription getText? r.Description
        Source := r.Source
        date := dt }))

/-- Append the ten topic-flag columns to a sorted record. -/
def addTopics (r : ProcRecord) : NewsRecord :=
  { Title := r.Title
    Link := r.Link
    Description := r.Description
    Source := r.Source
    date := r.date
    topics := TOPIC_KEYWORDS.map (fun tk =>
      (tk.1, topicFlag tk.2 r.Title r.Description)) }

/-- The columns of a successfully processed frame: `date` appended,
`Published` dropped, the ten topic columns appended in taxonomy order. -/
def procCols : List Str :=
  [pstr "Title", pstr "Link", pstr "Description", pstr "Source",
   pstr "date"] ++ TOPIC_KEYWORDS.map (·.1)

/-- The contract of `df.sort_values(by='date', ascending=False)` with the
default `kind='quicksort'`: the rows are permuted into weakly descending
date order.  numpy's quicksort is documented as unstable, so the order of
equal-dated rows is *unspecified*; the sort is therefore a parameter `σ`
constrained by this predicate rather than a fixed function. -/
def SortValuesSpec (σ : List ProcRecord → List ProcRecord) : Prop :=
  ∀ l : List ProcRecord,
    (σ l).Perm l ∧ (σ l).Sorted (fun a b => dateNs b.date ≤ dateNs a.date)

/-- `process_data`.  `inCols` are the input frame's columns (`process_data`
returns the input frame unchanged when it has no rows).  When every row is
dropped by `dropna`, the later `df.apply(…, axis=1)` on the empty frame
returns an empty `DataFrame`, whose assignment to the single column
`df[topic]` raises `ValueError`; the `except` then returns a fresh
column-less `pd.DataFrame()`. -/
def process_data (getText? : Str → Option Str)
    (σ : List ProcRecord → List ProcRecord) (inCols : List Str)
    (df : List RawRecord) : PipeDF :=
  if df = [] then ⟨inCols, []⟩
  else
    let dated := datedRows getText? df
    if dated = [] then ⟨[], []⟩
    else ⟨procCols, (σ dated).map addTopics⟩

/-! ## `fetch_all_feeds` / `get_ai_medicine_news` -/

/-- The merged RSS record list (`all_entries` after the worker-pool join):
the outer list order models the nondeterministic `as_completed` completion
order, over which all theorems quantify. -/
def rssMerged (feeds : List (Str × Option (List FPEntry))) :
    List RawRecord :=
  (feeds.map (fun p => fetch_single_feed p.1 p.2)).flatten

/-- The rows of `combined_df = pd.concat([rss_df, arxiv_df])`. -/
def combinedRows (feeds : List (Str × Option (List FPEntry)))
    (arxiv : Option (List FPEntry)) : List RawRecord :=
  rssMerged feeds ++ fetch_arxiv_papers arxiv

/-- `fetch_all_feeds(days)`: fetch, merge, process, then — only when the
processed frame is nonempty — keep rows with
`date >= datetime.now() - timedelta(days=days)`.  `now` is the wall-clock
instant (nanosecond key) at call time.  There is no upper cutoff. -/
def fetch_all_feeds (getText? : Str → Option Str)
    (σ : List ProcRecord → List ProcRecord)
    (feeds : List (Str × Option (List FPEntry)))
    (arxiv : Option (List FPEntry)) (now : Int) (days : Int) : PipeDF :=
  let processed := process_data getText? σ
    (unionCols rawCols (arxivCols arxiv)) (combinedRows feeds arxiv)
  if processed.rows = [] then processed
  else ⟨processed.cols,
        processed.rows.filter (fun r =>
          decide (now - days * nsPerDay ≤ dateNs r.date))⟩

/-- `get_ai_medicine_news(days)` — the pipeline entry point. -/
def get_ai_medicine_news (getText? : Str → Option Str)
    (σ : List ProcRecord → List ProcRecord)
    (feeds : List (Str × Option (List FPEntry)))
    (arxiv : Option (List FPEntry)) (now : Int) (days : Int) : PipeDF :=
  fetch_all_feeds getText? σ feeds arxiv now days

/-- A concrete sort satisfying `SortValuesSpec`, used to instantiate the
sort parameter in witnesses: stable ascending insertion sort followed by
reversal (admissible for the contract; on ties it reverses the incoming
order, which numpy's unstable quicksort is free to do). -/
def descSortImpl (l : List ProcRecord) : List ProcRecord :=
  (l.insertionSort (fun a b => dateNs a.date ≤ dateNs b.date)).reverse

/-! ## Supporting lemmas -/

/-- `str.lower` distributes over the title–space–description concatenation. -/
theorem lowerS_append_space (a b : Str) :
    lowerS (a ++ pstr " " ++ b) = lowerS a ++ ' ' :: lowerS b := by
  simp [lowerS, pstr]

instance : IsTotal ProcRecord (fun a b => dateNs a.date ≤ dateNs b.date) :=
  ⟨fun a b => Int.le_total _ _⟩

instance : IsTrans ProcRecord (fun a b => dateNs a.date ≤ dateNs b.date) :=
  ⟨fun _ _ _ hab hbc => le_trans hab hbc⟩

/-- The admissibility of the concrete sort used in witnesses. -/
theorem descSortImpl_spec : SortValuesSpec descSortImpl := by
  intro l
  constructor
  · exact (List.reverse_perm _).trans (List.perm_insertionSort _ l)
  · have hs := List.sorted_insertionSort
      (fun a b : ProcRecord => dateNs a.date ≤ dateNs b.date) l
    simpa [descSortImpl, List.Sorted, List.pairwise_reverse] using hs

/-- Membership in the rows of a processed frame comes from `addTopics`
applied after the sort. -/
theorem mem_process_data_rows {getText? : Str → Option Str}
    {σ : List ProcRecord → List ProcRecord} {inCols : List Str}
    {df : List RawRecord} {r : NewsRecord}
    (h : r ∈ (process_data getText? σ inCols df).rows) :
    ∃ p ∈ σ (datedRows getText? df), r = addTopics p := by
  by_cases hdf : df = []
  · simp [process_data, hdf] at h
  · by_cases hdated : datedRows getText? df = []
    · simp [process_data, hdf, hdated] at h
    · simp only [process_data, if_neg hdf, if_neg hdated] at h
      obtain ⟨p, hp, hpr⟩ := List.mem_map.1 h
      exact ⟨p, hp, hpr.symm⟩

/-! ## Claim theorems -/

/-- **C7.** `clean_html` never raises (it is a total function of its
inputs): when the parser (modelled by `getText?`, the third-party
`BeautifulSoup(text).get_text()` call) succeeds with tag-free text `t`,
the result is `t` stripped of surrounding whitespace; on any parse failure
the original input text is returned unchanged. -/
theorem clean_html_total_fallback (getText? : Str → Option Str) (text : Str) :
    (getText? text = none → clean_html getText? text = text) ∧
    (∀ t, getText? text = some t → clean_html getText? text = pyStrip t) := by
  refine ⟨fun h => ?_, fun t h => ?_⟩ <;> simp [clean_html, h]

/-- Witness for C7 at concrete inputs: a failing parse returns the input
unchanged; a successful parse is stripped. -/
theorem clean_html_total_fallback_witness :
    clean_html (fun _ => none) (pstr "<p>oops") = pstr "<p>oops" ∧
    clean_html (fun s => some s) (pstr " hi ") = pstr "hi" :=
  ⟨(clean_html_total_fallback (fun _ => none) (pstr "<p>oops")).1 rfl,
   ((clean_html_total_fallback (fun s => some s) (pstr " hi ")).2 _ rfl).trans
     (by decide)⟩

/-- **C4.** The description transformation: when the sanitized text is
longer than 300 characters the output is exactly its first 300 characters
followed by `"..."` (length 303, ending in `"..."`); otherwise the
sanitized text is returned unchanged.  The 300-character decision is taken
on the sanitized length `(clean_html getText? x).length`, never on the raw
length of `x`. -/
theorem truncDescription_spec (getText? : Str → Option Str) (x : Str) :
    (300 < (clean_html getText? x).length →
      truncDescription getText? x
          = (clean_html getText? x).take 300 ++ pstr "..." ∧
        (truncDescription getText? x).length = 303 ∧
        pstr "..." <:+ truncDescription getText? x) ∧
    ((clean_html getText? x).length ≤ 300 →
      truncDescription getText? x = clean_html getText? x) := by
  constructor
  · intro h
    refine ⟨by simp [truncDescription, h], ?_, ?_⟩
    · simp only [truncDescription, if_pos h, List.length_append,
        List.length_take]
      simp [pstr]
      omega
    · simp only [truncDescription, if_pos h]
      exact List.suffix_append _ _
  · intro h
    simp [truncDescription, Nat.not_lt.mpr h]

/-- Witness for C4: a 301-character sanitized text is cut to 303
characters ending in `"..."`; a short one is unchanged. -/
theorem truncDescription_spec_witness :
    (300 < (clean_html (fun s => some s) (List.replicate 301 'a')).length ∧
      (truncDescription (fun s => some s) (List.replicate 301 'a')).length
        = 303) ∧
    ((clean_html (fun s => some s) (pstr "short")).length ≤ 300 ∧
      truncDescription (fun s => some s) (pstr "short") = pstr "short") :=
  ⟨⟨by decide,
    (((truncDescription_spec (fun s => some s)
        (List.replicate 301 'a')).1 (by decide)).2).1⟩,
   ⟨by decide,
    (truncDescription_spec (fun s => some s) (pstr "short")).2 (by decide)⟩⟩

/-- **C5.** Topic classification: the taxonomy has exactly the 10 fixed
topics; for each topic the flag computed by the classifier is `true` iff
at least one of the topic's keywords occurs as a case-insensitive
substring of the concatenation `title ++ " " ++ description` (pure
substring match); and every record produced by `process_data` carries
exactly these flags, computed from its own title and its sanitized
description. -/
theorem topic_flags_spec :
    TOPIC_KEYWORDS.length = 10 ∧
    TOPIC_KEYWORDS.map (·.1) = MEDICAL_AI_TOPICS ∧
    (∀ tk ∈ TOPIC_KEYWORDS, ∀ title desc : Str,
      (topicFlag tk.2 title desc = true ↔
        ∃ kw ∈ tk.2,
          containsSub (lowerS (title ++ pstr " " ++ desc)) (lowerS kw)
            = true)) ∧
    (∀ (getText? : Str → Option Str) (σ : List ProcRecord → List ProcRecord)
      (inCols : List Str) (df : List RawRecord) (r : NewsRecord),
      r ∈ (process_data getText? σ inCols df).rows →
      r.topics = TOPIC_KEYWORDS.map (fun tk =>
        (tk.1, topicFlag tk.2 r.Title r.Description))) := by
  refine ⟨by decide, by decide, ?_, ?_⟩
  · intro tk _ title desc
    rw [lowerS_append_space]
    exact List.any_eq_true
  · intro getText? σ inCols df r h
    obtain ⟨p, _, rfl⟩ := mem_process_data_rows h
    rfl

/-- Witness for C5 at a concrete record: a title containing "MRI" sets the
"Medical Imaging" flag, via the keyword `"mri"` occurring in the
lowercased concatenation. -/
theorem topic_flags_spec_witness :
    topicFlag TOPIC_KEYWORDS.head!.2 (pstr "New MRI study") (pstr "x")
      = true ∧
    containsSub (lowerS (pstr "New MRI study" ++ pstr " " ++ pstr "x"))
      (lowerS (pstr "mri")) = true :=
  ⟨(topic_flags_spec.2.2.1 TOPIC_KEYWORDS.head! (by decide)
      (pstr "New MRI study") (pstr "x")).mpr
    ⟨pstr "mri", by decide, by decide⟩,
   by decide⟩

/-- **C6 counterexample.** An arXiv entry lacking both title and link
yields a record whose title and link are the *empty string*, not a
placeholder — so the claim "title and link are never left empty" is false
for the arXiv fetcher. -/
theorem arxiv_empty_defaults_cx :
    fetch_arxiv_papers (some [⟨none, none, none, none, none, none⟩])
      = [mkArxivRecord ⟨none, none, none, none, none, none⟩] ∧
    (mkArxivRecord ⟨none, none, none, none, none, none⟩).Title = [] ∧
    (mkArxivRecord ⟨none, none, none, none, none, none⟩).Link = [] := by
  decide

/-- **C6 (amended).** The RSS fetcher substitutes the placeholders
`"No Title"` / `"No Link"` for absent fields (so its titles and links are
never empty), while the arXiv fetcher substitutes empty strings. -/
theorem fetcher_missing_field_defaults :
    (∀ (src : Str) (es : List FPEntry),
      fetch_single_feed src (some es) = es.map (mkRssRecord src)) ∧
    (∀ (src : Str) (e : FPEntry),
      (e.title? = none → (mkRssRecord src e).Title = pstr "No Title") ∧
      (e.link? = none → (mkRssRecord src e).Link = pstr "No Link")) ∧
    (∀ (es : List FPEntry),
      fetch_arxiv_papers (some es) = es.map mkArxivRecord) ∧
    (∀ e : FPEntry,
      (e.title? = none → (mkArxivRecord e).Title = []) ∧
      (e.link? = none → (mkArxivRecord e).Link = [])) := by
  refine ⟨fun _ _ => rfl, fun src e => ⟨fun h => ?_, fun h => ?_⟩,
    fun _ => rfl, fun e => ⟨fun h => ?_, fun h => ?_⟩⟩ <;>
    simp [mkRssRecord, mkArxivRecord, replaceNl, h]

/-- Witness for the amended C6 at a concrete entry with no fields. -/
theorem fetcher_missing_field_defaults_witness :
    (mkRssRecord (pstr "Nature")
        ⟨none, none, none, none, none, none⟩).Title = pstr "No Title" ∧
    (mkArxivRecord ⟨none, none, none, none, none, none⟩).Title = [] :=
  ⟨(fetcher_missing_field_defaults.2.1 (pstr "Nature") _).1 rfl,
   (fetcher_missing_field_defaults.2.2.2 _).1 rfl⟩

/-- **C8.** Per-feed failure isolation: a feed whose fetch-and-parse
raises contributes zero records; removing it from the merge leaves the
other feeds' merged records exactly unchanged; and every record of every
feed in the registry appears in the combined aggregate handed to
`process_data`.  The pipeline itself is a total function, so one feed's
failure never aborts it. -/
theorem feed_failure_isolation :
    (∀ src : Str, fetch_single_feed src none = []) ∧
    (∀ (l1 l2 : List (Str × Option (List FPEntry))) (src : Str),
      rssMerged (l1 ++ (src, none) :: l2) = rssMerged (l1 ++ l2)) ∧
    (∀ (feeds : List (Str × Option (List FPEntry)))
      (arxiv : Option (List FPEntry)) (p : Str × Option (List FPEntry)),
      p ∈ feeds → ∀ r ∈ fetch_single_feed p.1 p.2,
        r ∈ combinedRows feeds arxiv) := by
  refine ⟨fun _ => rfl, fun l1 l2 src => ?_, fun feeds arxiv p hp r hr => ?_⟩
  · simp [rssMerged, fetch_single_feed]
  · refine List.mem_append_left _ ?_
    exact List.mem_flatten.2 ⟨_, List.mem_map.2 ⟨p, hp, rfl⟩, hr⟩

/-- Witness for C8: with one failing feed and one succeeding feed, the
failing feed's records vanish while the succeeding feed's record is in
the aggregate. -/
theorem feed_failure_isolation_witness :
    rssMerged [(pstr "BMJ", none),
      (pstr "Nature",
        some [⟨some (pstr "t"), some (pstr "l"), some (pstr "p"),
          some (pstr "d"), none, none⟩])] =
      rssMerged [(pstr "Nature",
        some [⟨some (pstr "t"), some (pstr "l"), some (pstr "p"),
          some (pstr "d"), none, none⟩])] ∧
    mkRssRecord (pstr "Nature")
        ⟨some (pstr "t"), some (pstr "l"), some (pstr "p"),
          some (pstr "d"), none, none⟩ ∈
      combinedRows [(pstr "BMJ", none),
        (pstr "Nature",
          some [⟨some (pstr "t"), some (pstr "l"), some (pstr "p"),
            some (pstr "d"), none, none⟩])] none :=
  ⟨feed_failure_isolation.2.1 [] _ (pstr "BMJ"),
   feed_failure_isolation.2.2 _ none
     (pstr "Nature",
       some [⟨some (pstr "t"), some (pstr "l"), some (pstr "p"),
         some (pstr "d"), none, none⟩])
     (by decide) _ (by decide)⟩

/-- **C9.** In `extract_date`, once pattern 1 has matched, its parse
result is the function's result — a parse failure returns the sentinel via
the exception handler and the ISO pattern is never consulted.  In
particular, `"30 Feb 2025 2025-04-14"` contains the valid ISO date
2025-04-14, yet pattern 1 matches the impossible `"30 Feb 2025"`, parsing
fails, and the result is the sentinel. -/
theorem extract_date_pattern1_shortcircuits :
    (∀ (s : Str) (day mon yr : Str),
      searchP1 s = some (day, mon, yr) →
      extract_date s = parseRfcGroup day mon yr) ∧
    (searchP1 (pstr "30 Feb 2025 2025-04-14")
        = some (pstr "30", pstr "Feb", pstr "2025") ∧
      parseRfcGroup (pstr "30") (pstr "Feb") (pstr "2025") = none ∧
      searchISO (pstr "30 Feb 2025 2025-04-14")
        = some (pstr "2025", pstr "04", pstr "14") ∧
      parseIsoGroup (pstr "2025") (pstr "04") (pstr "14")
        = some ⟨2025, 4, 14⟩ ∧
      extract_date (pstr "30 Feb 2025 2025-04-14") = none) := by
  refine ⟨fun s day mon yr h => ?_, by decide⟩
  simp [extract_date, h]

/-- Witness for C9 at the concrete input. -/
theorem extract_date_pattern1_shortcircuits_witness :
    extract_date (pstr "30 Feb 2025 2025-04-14")
      = parseRfcGroup (pstr "30") (pstr "Feb") (pstr "2025") :=
  extract_date_pattern1_shortcircuits.1 _ _ _ _ (by decide)

/-- **C1 counterexample.** The recency filter has no upper cutoff: a feed
entry dated 2100-01-01 survives the `days=30` window computed at a 2025
wall-clock instant, so the returned set contains a record dated later than
`now` — the claimed window `[now - days, now]` is violated on the right. -/
theorem future_dated_record_returned_cx :
    addTopics ⟨pstr "AI", pstr "http://x", pstr "d", pstr "Science Daily",
        ⟨2100, 1, 1⟩⟩
      ∈ (get_ai_medicine_news (fun s => some s) descSortImpl
        [(pstr "Science Daily",
          some [⟨some (pstr "AI"), some (pstr "http://x"),
            some (pstr "Wed, 1 Jan 2100 00:00:00 GMT"),
            some (pstr "d"), none, none⟩])]
        none (dateNs ⟨2025, 4, 20⟩) 30).rows ∧
    dateNs ⟨2025, 4, 20⟩
      < dateNs (addTopics ⟨pstr "AI", pstr "http://x", pstr "d",
          pstr "Science Daily", ⟨2100, 1, 1⟩⟩).date := by decide

/-- **C1 (amended).** Every record returned by the pipeline entry point
satisfies the *lower* bound of the recency window,
`date ≥ now - days` (inclusive), and comes from the processed record set;
no upper bound is enforced, so future-dated records are not excluded. -/
theorem recency_window_lower_bound_only (getText? : Str → Option Str)
    (σ : List ProcRecord → List ProcRecord)
    (feeds : List (Str × Option (List FPEntry)))
    (arxiv : Option (List FPEntry)) (now days : Int) :
    ∀ r ∈ (get_ai_medicine_news getText? σ feeds arxiv now days).rows,
      now - days * nsPerDay ≤ dateNs r.date ∧
      r ∈ (process_data getText? σ (unionCols rawCols (arxivCols arxiv))
            (combinedRows feeds arxiv)).rows := by
  intro r hr
  simp only [get_ai_medicine_news, fetch_all_feeds] at hr
  by_cases h : (process_data getText? σ
      (unionCols rawCols (arxivCols arxiv)) (combinedRows feeds arxiv)).rows
      = []
  · rw [if_pos h, h] at hr
    exact absurd hr (List.not_mem_nil r)
  · rw [if_neg h] at hr
    obtain ⟨hmem, hdec⟩ := List.mem_filter.1 hr
    exact ⟨of_decide_eq_true hdec, hmem⟩

/-- Witness for the amended C1: concretely, the 2100-dated record above is
in the output and satisfies the lower bound. -/
theorem recency_window_lower_bound_only_witness :
    dateNs ⟨2025, 4, 20⟩ - 30 * nsPerDay
      ≤ dateNs (addTopics ⟨pstr "AI", pstr "http://x", pstr "d",
          pstr "Science Daily", ⟨2100, 1, 1⟩⟩).date :=
  (recency_window_lower_bound_only (fun s => some s) descSortImpl
    [(pstr "Science Daily",
      some [⟨some (pstr "AI"), some (pstr "http://x"),
        some (pstr "Wed, 1 Jan 2100 00:00:00 GMT"),
        some (pstr "d"), none, none⟩])]
    none (dateNs ⟨2025, 4, 20⟩) 30
    (addTopics ⟨pstr "AI", pstr "http://x", pstr "d", pstr "Science Daily",
      ⟨2100, 1, 1⟩⟩) (by decide)).1

/-- **C2 counterexample.** The sort step delegates to
`sort_values(..., ascending=False)` with the default `kind='quicksort'`
(numpy introsort), whose order on equal keys is unspecified — the sort
contract `SortValuesSpec` does not pin tie order.  The admissible
implementation `descSortImpl` reverses the merge order of two equal-dated
records inside `process_data`, so "equal dates keep their original merge
order" is false for the code's sort contract. -/
theorem sort_tie_reorder_cx :
    descSortImpl
        [⟨pstr "A", pstr "la", pstr "da", pstr "S1", ⟨2025, 4, 14⟩⟩,
         ⟨pstr "B", pstr "lb", pstr "db", pstr "S2", ⟨2025, 4, 14⟩⟩]
      = [⟨pstr "B", pstr "lb", pstr "db", pstr "S2", ⟨2025, 4, 14⟩⟩,
         ⟨pstr "A", pstr "la", pstr "da", pstr "S1", ⟨2025, 4, 14⟩⟩] ∧
    (process_data (fun s => some s) descSortImpl rawCols
        [⟨pstr "A", pstr "la", pstr "2025-04-14", pstr "da", pstr "S1"⟩,
         ⟨pstr "B", pstr "lb", pstr "2025-04-14", pstr "db", pstr "S2"⟩]).rows
      = [addTopics ⟨pstr "B", pstr "lb", pstr "db", pstr "S2", ⟨2025, 4, 14⟩⟩,
         addTopics ⟨pstr "A", pstr "la", pstr "da", pstr "S1", ⟨2025, 4, 14⟩⟩]
      := by decide

/-- **C2 (amended).** For every admissible implementation of the pandas
sort contract, the surviving records of `process_data` are ordered by date
weakly descending and are a permutation of the merged surviving records —
the order of equal-dated records is *unspecified* (the default
`kind='quicksort'` is not stable). -/
theorem process_data_sorted_descending
    (σ : List ProcRecord → List ProcRecord) (hσ : SortValuesSpec σ)
    (getText? : Str → Option Str) (inCols : List Str)
    (df : List RawRecord) :
    (process_data getText? σ inCols df).rows.Sorted
        (fun a b => dateNs b.date ≤ dateNs a.date) ∧
    (process_data getText? σ inCols df).rows.Perm
        ((datedRows getText? df).map addTopics) := by
  by_cases hdf : df = []
  · subst hdf
    simp [process_data, datedRows]
  · by_cases hdated : datedRows getText? df = []
    · simp [process_data, hdf, hdated]
    · simp only [process_data, if_neg hdf, if_neg hdated]
      obtain ⟨hperm, hsort⟩ := hσ (datedRows getText? df)
      exact ⟨List.pairwise_map.mpr hsort, hperm.map addTopics⟩

/-- Witness for the amended C2 at a concrete two-record input. -/
theorem process_data_sorted_descending_witness :
    (process_data (fun s => some s) descSortImpl rawCols
        [⟨pstr "A", pstr "la", pstr "2025-04-13", pstr "da", pstr "S1"⟩,
         ⟨pstr "B", pstr "lb", pstr "2025-04-14", pstr "db", pstr "S2"⟩]).rows.Sorted
        (fun a b => dateNs b.date ≤ dateNs a.date) ∧
    (process_data (fun s => some s) descSortImpl rawCols
        [⟨pstr "A", pstr "la", pstr "2025-04-13", pstr "da", pstr "S1"⟩,
         ⟨pstr "B", pstr "lb", pstr "2025-04-14", pstr "db", pstr "S2"⟩]).rows.Perm
        ((datedRows (fun s => some s)
          [⟨pstr "A", pstr "la", pstr "2025-04-13", pstr "da", pstr "S1"⟩,
           ⟨pstr "B", pstr "lb", pstr "2025-04-14", pstr "db", pstr "S2"⟩]).map
            addTopics) :=
  process_data_sorted_descending descSortImpl descSortImpl_spec _ _ _

/-- **C10 counterexample.** When all fetchers yield no entries (one feed
parses with zero entries, the arXiv fetch fails), the pipeline returns an
empty frame that *still carries the five raw columns* — in particular a
`Source` column — contradicting "no date, Source, or topic columns at
all". -/
theorem empty_fetch_keeps_raw_columns_cx :
    (get_ai_medicine_news (fun s => some s) descSortImpl
        [(pstr "Nature", some [])] none 0 30).cols = rawCols ∧
    pstr "Source" ∈ (get_ai_medicine_news (fun s => some s) descSortImpl
        [(pstr "Nature", some [])] none 0 30).cols ∧
    (get_ai_medicine_news (fun s => some s) descSortImpl
        [(pstr "Nature", some [])] none 0 30).rows = [] := by decide

/-- **C10 (amended).** The empty results of the pipeline have two distinct
shapes: when the merged fetch result has no rows at all, the returned
empty frame keeps the five raw columns
`Title, Link, Published, Description, Source` (no `date` or topic
columns); only when `process_data` hits its internal error path — which
happens exactly when rows exist but every date is unparseable, making the
topic-flag assignment on the empty frame raise — is the result the fresh
column-less `pd.DataFrame()`. -/
theorem empty_result_column_shapes (getText? : Str → Option Str)
    (σ : List ProcRecord → List ProcRecord)
    (feeds : List (Str × Option (List FPEntry)))
    (arxiv : Option (List FPEntry)) (now days : Int) :
    (combinedRows feeds arxiv = [] →
      get_ai_medicine_news getText? σ feeds arxiv now days
        = ⟨rawCols, []⟩) ∧
    (combinedRows feeds arxiv ≠ [] →
      datedRows getText? (combinedRows feeds arxiv) = [] →
      get_ai_medicine_news getText? σ feeds arxiv now days = ⟨[], []⟩) := by
  have hcols : unionCols rawCols (arxivCols arxiv) = rawCols := by
    cases arxiv <;> rfl
  constructor
  · intro h
    simp [get_ai_medicine_news, fetch_all_feeds, process_data, h, hcols]
  · intro h hd
    simp [get_ai_medicine_news, fetch_all_feeds, process_data, h, hd]

/-- Witness for the amended C10: both empty shapes at concrete inputs. -/
theorem empty_result_column_shapes_witness :
    get_ai_medicine_news (fun s => some s) descSortImpl [] none 0 30
      = ⟨rawCols, []⟩ ∧
    get_ai_medicine_news (fun s => some s) descSortImpl
        [(pstr "BMJ",
          some [⟨none, none, some (pstr "last week"), none, none, none⟩])]
        none 0 30
      = ⟨[], []⟩ :=
  ⟨(empty_result_column_shapes (fun s => some s) descSortImpl [] none 0 30).1
     rfl,
   (empty_result_column_shapes (fun s => some s) descSortImpl
      [(pstr "BMJ",
        some [⟨none, none, some (pstr "last week"), none, none, none⟩])]
      none 0 30).2 (by decide) (by decide)⟩

/-! ## Regex-shape lemmas for the Date Normalizer (claim C3) -/

theorem word_not_space {c : Char} (h : isWordC c = true) : isSpaceC c = false := by
  by_contra hs
  rw [Bool.not_eq_false] at hs
  simp only [isSpaceC, Bool.or_eq_true, beq_iff_eq] at hs
  rcases hs with ((((rfl | rfl) | rfl) | rfl) | rfl) | rfl <;>
    exact absurd h (by decide)

theorem digit_is_word {c : Char} (h : isDigitC c = true) : isWordC c = true := by
  simp only [isDigitC] at h
  simp [isWordC, Char.isAlphanum, h]

theorem digit_not_space {c : Char} (h : isDigitC c = true) : isSpaceC c = false :=
  word_not_space (digit_is_word h)

theorem takeWhile_append_stop (p : Char → Bool) :
    ∀ (l : Str) (c : Char) (r : Str), (∀ x ∈ l, p x = true) → p c = false →
      (l ++ c :: r).takeWhile p = l ∧ (l ++ c :: r).dropWhile p = c :: r := by
  intro l
  induction l with
  | nil => intro c r _ hc; simp [List.takeWhile_cons, List.dropWhile_cons, hc]
  | cons a l ih =>
    intro c r h hc
    have ha := h a (List.mem_cons_self a l)
    have hl : ∀ x ∈ l, p x = true := fun x hx => h x (List.mem_cons_of_mem a hx)
    have hrec := ih c r hl hc
    simp [List.takeWhile_cons, List.dropWhile_cons, ha, hrec.1, hrec.2]

theorem takeCount_exact (p : Char → Bool) :
    ∀ (l r : Str), (∀ c ∈ l, p c = true) →
      takeCount p l.length (l ++ r) = some (l, r) := by
  intro l
  induction l with
  | nil => intro r _; rfl
  | cons c l ih =>
    intro r h
    have hc : p c = true := h c (List.mem_cons_self c l)
    have hl : ∀ x ∈ l, p x = true := fun x hx => h x (List.mem_cons_of_mem c hx)
    simp [takeCount, hc, ih r hl]

theorem takeCount_rest_suffix (p : Char → Bool) :
    ∀ (n : Nat) (l t r : Str), takeCount p n l = some (t, r) → r <:+ l := by
  intro n
  induction n with
  | zero =>
    intro l t r h
    simp only [takeCount, Option.some.injEq, Prod.mk.injEq] at h
    rw [← h.2]
  | succ n ih =>
    intro l t r h
    cases l with
    | nil => exact absurd h (by simp [takeCount])
    | cons c cs =>
      simp only [takeCount] at h
      by_cases hc : p c = true
      · rw [if_pos hc] at h
        obtain ⟨⟨t', r'⟩, h1, h2⟩ := Option.map_eq_some'.1 h
        cases h2
        exact (ih cs t' r' h1).trans (List.suffix_cons c cs)
      · rw [if_neg hc] at h; cases h

theorem dropWs_suffix : ∀ {l r : Str}, dropWs l = some r → r <:+ l := by
  intro l r h
  cases l with
  | nil => exact absurd h (by simp [dropWs])
  | cons c t =>
    simp only [dropWs] at h
    by_cases hc : isSpaceC c = true
    · rw [if_pos hc] at h
      cases h
      exact (List.dropWhile_suffix _).trans (List.suffix_cons c t)
    · rw [if_neg hc] at h; cases h

theorem takeCount_digit4_none (l : Str) (h : ∀ c ∈ l, isDigitC c = false) :
    takeCount isDigitC 4 l = none := by
  cases l with
  | nil => rfl
  | cons c t => simp [takeCount, h c (List.mem_cons_self c t)]

/-- The tail of the capture group can never match in a digit-free string
(its `\d{4}` needs digits). -/
theorem matchTail_none_of_nodigit (cs : Str)
    (h : ∀ c ∈ cs, isDigitC c = false) : matchTail cs = none := by
  unfold matchTail
  split
  · rfl
  next cs1 h1 =>
    have hcs1 : ∀ c ∈ cs1, isDigitC c = false :=
      fun c hc => h c ((dropWs_suffix h1).subset hc)
    split
    · rfl
    next mon cs2 h2 =>
      have hcs2 : ∀ c ∈ cs2, isDigitC c = false :=
        fun c hc => hcs1 c ((takeCount_rest_suffix _ 3 cs1 mon cs2 h2).subset hc)
      split
      · rfl
      next cs3 h3 =>
        have hcs3 : ∀ c ∈ cs3, isDigitC c = false :=
          fun c hc => hcs2 c ((dropWs_suffix h3).subset hc)
        rw [takeCount_digit4_none cs3 hcs3]

/-- The tail of the capture group requires whitespace first. -/
theorem matchTail_none_head {c : Char} (h : isSpaceC c = false) (cs : Str) :
    matchTail (c :: cs) = none := by
  simp [matchTail, dropWs, h]

theorem matchBody_none_head {c : Char} (h : isDigitC c = false) (cs : Str) :
    matchBody (c :: cs) = none := by
  simp [matchBody, h]

/-- No suffix of `pre ++ "yyyy-mm-dd" ++ post` can match the capture group
when `pre`/`post` are digit-free: the `\d{4}` can only land on the year
run, and no digit precedes it to serve as the day. -/
theorem matchBody_none_iso_suffix
    {y1 y2 y3 y4 p1 p2 q1 q2 : Char} {post : Str}
    (hy1 : isDigitC y1 = true) (hy2 : isDigitC y2 = true)
    (hy3 : isDigitC y3 = true) (hy4 : isDigitC y4 = true)
    (hp1 : isDigitC p1 = true) (hp2 : isDigitC p2 = true)
    (hq1 : isDigitC q1 = true) (hq2 : isDigitC q2 = true)
    (hpost : ∀ c ∈ post, isDigitC c = false) :
    ∀ t : Str,
      t <:+ (y1 :: y2 :: y3 :: y4 :: '-' :: p1 :: p2 :: '-'
              :: q1 :: q2 :: post) →
      matchBody t = none := by
  intro t ht
  rcases List.suffix_cons_iff.1 ht with rfl | ht
  · simp [matchBody, hy1, hy2, matchTail_none_head (digit_not_space hy3)]
  rcases List.suffix_cons_iff.1 ht with rfl | ht
  · simp [matchBody, hy2, hy3, matchTail_none_head (digit_not_space hy4)]
  rcases List.suffix_cons_iff.1 ht with rfl | ht
  · simp [matchBody, hy3, hy4,
      matchTail_none_head (show isSpaceC '-' = false by decide)]
  rcases List.suffix_cons_iff.1 ht with rfl | ht
  · simp [matchBody, hy4, show isDigitC '-' = false by decide,
      matchTail_none_head (show isSpaceC '-' = false by decide)]
  rcases List.suffix_cons_iff.1 ht with rfl | ht
  · exact matchBody_none_head (by decide) _
  rcases List.suffix_cons_iff.1 ht with rfl | ht
  · simp [matchBody, hp1, hp2,
      matchTail_none_head (show isSpaceC '-' = false by decide)]
  rcases List.suffix_cons_iff.1 ht with rfl | ht
  · simp [matchBody, hp2, show isDigitC '-' = false by decide,
      matchTail_none_head (show isSpaceC '-' = false by decide)]
  rcases List.suffix_cons_iff.1 ht with rfl | ht
  · exact matchBody_none_head (by decide) _
  rcases List.suffix_cons_iff.1 ht with rfl | ht
  · simp [matchBody, hq1, hq2, matchTail_none_of_nodigit post hpost]
  rcases List.suffix_cons_iff.1 ht with rfl | ht
  · cases post with
    | nil => simp [matchBody, hq2]
    | cons c p2' =>
      have hc : isDigitC c = false := hpost c (List.mem_cons_self c p2')
      simp [matchBody, hq2, hc, matchTail_none_of_nodigit (c :: p2') hpost]
  · cases t with
    | nil => rfl
    | cons c t2 =>
      exact matchBody_none_head
        (hpost c (ht.subset (List.mem_cons_self c t2))) _

/-- If no suffix matches the capture group, the prefix alternative of
pattern 1 fails too (it only hands a suffix to the capture group). -/
theorem matchP1Prefix_none (cs : Str)
    (H : ∀ t, t <:+ cs → matchBody t = none) : matchP1Prefix cs = none := by
  unfold matchP1Prefix
  split
  · rfl
  next he =>
    split
    next d rest hdw =>
      by_cases hd : d = ','
      · rw [if_pos hd]
        split
        next rest2 hws =>
          have h1 : (d :: rest) <:+ cs := by
            rw [← hdw]; exact List.dropWhile_suffix _
          have h2 : rest2 <:+ cs :=
            (dropWs_suffix hws).trans ((List.suffix_cons d rest).trans h1)
          exact H rest2 h2
        next hws => rfl
      · rw [if_neg hd]
    next hdw => rfl

/-- `re.search` of pattern 1 fails when the anchored capture group fails
at every position. -/
theorem searchP1_none_of :
    ∀ s : Str, (∀ t, t <:+ s → matchBody t = none) → searchP1 s = none := by
  intro s
  induction s with
  | nil => intro _; rfl
  | cons c cs ih =>
    intro H
    have hb : matchBody (c :: cs) = none := H _ List.suffix_rfl
    have hp : matchP1Prefix (c :: cs) = none := matchP1Prefix_none _ H
    have hrec : searchP1 cs = none :=
      ih (fun t hts => H t (hts.trans (List.suffix_cons c cs)))
    simp [searchP1, matchP1At, hp, hb, hrec]

theorem takeCount_none_head (p : Char → Bool) {c : Char} (h : p c = false)
    (n : Nat) (cs : Str) : takeCount p (n + 1) (c :: cs) = none := by
  simp [takeCount, h]

theorem matchISOAt_none_head {c : Char} (h : isDigitC c = false) (cs : Str) :
    matchISOAt (c :: cs) = none := by
  have h4 : takeCount isDigitC 4 (c :: cs) = none :=
    takeCount_none_head isDigitC h 3 cs
  simp [matchISOAt, h4]

/-- Pattern 2's search skips over a digit-free prefix. -/
theorem searchISO_append_nodigit :
    ∀ (pre l : Str), (∀ c ∈ pre, isDigitC c = false) →
      searchISO (pre ++ l) = searchISO l := by
  intro pre
  induction pre with
  | nil => intro l _; rfl
  | cons c pre ih =>
    intro l h
    have hc : isDigitC c = false := h c (List.mem_cons_self c pre)
    have hi := ih l (fun x hx => h x (List.mem_cons_of_mem c hx))
    simp [searchISO, matchISOAt_none_head hc, hi]

/-- Pattern 2 matches at the head of an ISO-shaped string. -/
theorem matchISOAt_shape {y1 y2 y3 y4 p1 p2 q1 q2 : Char} (post : Str)
    (hy1 : isDigitC y1 = true) (hy2 : isDigitC y2 = true)
    (hy3 : isDigitC y3 = true) (hy4 : isDigitC y4 = true)
    (hp1 : isDigitC p1 = true) (hp2 : isDigitC p2 = true)
    (hq1 : isDigitC q1 = true) (hq2 : isDigitC q2 = true) :
    matchISOAt (y1 :: y2 :: y3 :: y4 :: '-' :: p1 :: p2 :: '-'
        :: q1 :: q2 :: post)
      = some ([y1, y2, y3, y4], [p1, p2], [q1, q2]) := by
  have h4 : takeCount isDigitC 4
      (y1 :: y2 :: y3 :: y4 :: ('-' :: p1 :: p2 :: '-' :: q1 :: q2 :: post))
      = some ([y1, y2, y3, y4], '-' :: p1 :: p2 :: '-' :: q1 :: q2 :: post) :=
    takeCount_exact isDigitC [y1, y2, y3, y4] _
      (by intro x hx; simp at hx; rcases hx with rfl | rfl | rfl | rfl <;>
        assumption)
  have h2a : takeCount isDigitC 2 (p1 :: p2 :: ('-' :: q1 :: q2 :: post))
      = some ([p1, p2], '-' :: q1 :: q2 :: post) :=
    takeCount_exact isDigitC [p1, p2] _
      (by intro x hx; simp at hx; rcases hx with rfl | rfl <;> assumption)
  have h2b : takeCount isDigitC 2 (q1 :: q2 :: post)
      = some ([q1, q2], post) :=
    takeCount_exact isDigitC [q1, q2] _
      (by intro x hx; simp at hx; rcases hx with rfl | rfl <;> assumption)
  simp [matchISOAt, h4, h2a, h2b]

theorem searchISO_iso_head {y1 y2 y3 y4 p1 p2 q1 q2 : Char} (post : Str)
    (hy1 : isDigitC y1 = true) (hy2 : isDigitC y2 = true)
    (hy3 : isDigitC y3 = true) (hy4 : isDigitC y4 = true)
    (hp1 : isDigitC p1 = true) (hp2 : isDigitC p2 = true)
    (hq1 : isDigitC q1 = true) (hq2 : isDigitC q2 = true) :
    searchISO (y1 :: y2 :: y3 :: y4 :: '-' :: p1 :: p2 :: '-'
        :: q1 :: q2 :: post)
      = some ([y1, y2, y3, y4], [p1, p2], [q1, q2]) := by
  simp [searchISO, matchISOAt_shape post hy1 hy2 hy3 hy4 hp1 hp2 hq1 hq2]

/-- A digit-free prefix cannot start a capture-group match. -/
theorem matchBody_none_append :
    ∀ (pre : Str), (∀ c ∈ pre, isDigitC c = false) →
    ∀ (core : Str), (∀ t, t <:+ core → matchBody t = none) →
    ∀ t, t <:+ (pre ++ core) → matchBody t = none := by
  intro pre
  induction pre with
  | nil => intro _ core hcore t ht; exact hcore t (by simpa using ht)
  | cons c pre ih =>
    intro hpre core hcore t ht
    rcases List.suffix_cons_iff.1 ht with rfl | ht2
    · exact matchBody_none_head (hpre c (List.mem_cons_self c pre)) _
    · exact ih (fun x hx => hpre x (List.mem_cons_of_mem c hx)) core hcore t ht2

/-- The capture-group tail matches `" mon yyyy…"`. -/
theorem matchTail_shape {m1 m2 m3 y1 y2 y3 y4 : Char} (rest : Str)
    (hm1 : isWordC m1 = true) (hm2 : isWordC m2 = true)
    (hm3 : isWordC m3 = true)
    (hy1 : isDigitC y1 = true) (hy2 : isDigitC y2 = true)
    (hy3 : isDigitC y3 = true) (hy4 : isDigitC y4 = true) :
    matchTail (' ' :: m1 :: m2 :: m3 :: ' ' :: y1 :: y2 :: y3 :: y4 :: rest)
      = some ([m1, m2, m3], [y1, y2, y3, y4]) := by
  have hws1 : dropWs (' ' :: m1 :: m2 :: m3 :: ' ' :: y1 :: y2 :: y3 :: y4
      :: rest) = some (m1 :: m2 :: m3 :: ' ' :: y1 :: y2 :: y3 :: y4 :: rest) := by
    simp [dropWs, show isSpaceC ' ' = true from by decide,
      List.dropWhile_cons, word_not_space hm1]
  have h3 : takeCount isWordC 3
      (m1 :: m2 :: m3 :: (' ' :: y1 :: y2 :: y3 :: y4 :: rest))
      = some ([m1, m2, m3], ' ' :: y1 :: y2 :: y3 :: y4 :: rest) :=
    takeCount_exact isWordC [m1, m2, m3] _
      (by intro x hx; simp at hx; rcases hx with rfl | rfl | rfl <;> assumption)
  have hws2 : dropWs (' ' :: y1 :: y2 :: y3 :: y4 :: rest)
      = some (y1 :: y2 :: y3 :: y4 :: rest) := by
    simp [dropWs, show isSpaceC ' ' = true from by decide,
      List.dropWhile_cons, digit_not_space hy1]
  have h4 : takeCount isDigitC 4 (y1 :: y2 :: y3 :: (y4 :: rest))
      = some ([y1, y2, y3, y4], rest) := by
    have := takeCount_exact isDigitC [y1, y2, y3, y4] rest
      (by intro x hx; simp at hx; rcases hx with rfl | rfl | rfl | rfl <;>
        assumption)
    simpa using this
  simp [matchTail, hws1, h3, hws2, h4]

/-- The capture group matches a one-digit-day RFC shape. -/
theorem matchBody_rfc1 {a m1 m2 m3 y1 y2 y3 y4 : Char} (rest : Str)
    (ha : isDigitC a = true)
    (hm1 : isWordC m1 = true) (hm2 : isWordC m2 = true)
    (hm3 : isWordC m3 = true)
    (hy1 : isDigitC y1 = true) (hy2 : isDigitC y2 = true)
    (hy3 : isDigitC y3 = true) (hy4 : isDigitC y4 = true) :
    matchBody (a :: ' ' :: m1 :: m2 :: m3 :: ' ' :: y1 :: y2 :: y3 :: y4
        :: rest)
      = some ([a], [m1, m2, m3], [y1, y2, y3, y4]) := by
  simp [matchBody, ha, show isDigitC ' ' = false from by decide,
    matchTail_shape rest hm1 hm2 hm3 hy1 hy2 hy3 hy4]

/-- The capture group matches a two-digit-day RFC shape. -/
theorem matchBody_rfc2 {a b m1 m2 m3 y1 y2 y3 y4 : Char} (rest : Str)
    (ha : isDigitC a = true) (hb : isDigitC b = true)
    (hm1 : isWordC m1 = true) (hm2 : isWordC m2 = true)
    (hm3 : isWordC m3 = true)
    (hy1 : isDigitC y1 = true) (hy2 : isDigitC y2 = true)
    (hy3 : isDigitC y3 = true) (hy4 : isDigitC y4 = true) :
    matchBody (a :: b :: ' ' :: m1 :: m2 :: m3 :: ' ' :: y1 :: y2 :: y3 :: y4
        :: rest)
      = some ([a, b], [m1, m2, m3], [y1, y2, y3, y4]) := by
  simp [matchBody, ha, hb, matchTail_shape rest hm1 hm2 hm3 hy1 hy2 hy3 hy4]

/-- No prefix alternative fires when the day digits start the string
(a space, not a comma, follows the leading word run). -/
theorem matchP1Prefix_day1_none {a : Char} (ha : isDigitC a = true)
    (rest : Str) : matchP1Prefix (a :: ' ' :: rest) = none := by
  simp [matchP1Prefix, List.takeWhile_cons, List.dropWhile_cons,
    digit_is_word ha, show isWordC ' ' = false from by decide]

theorem matchP1Prefix_day2_none {a b : Char} (ha : isDigitC a = true)
    (hb : isDigitC b = true) (rest : Str) :
    matchP1Prefix (a :: b :: ' ' :: rest) = none := by
  simp [matchP1Prefix, List.takeWhile_cons, List.dropWhile_cons,
    digit_is_word ha, digit_is_word hb, show isWordC ' ' = false from by decide]

/-- The prefix alternative consumes `"<word-run>, "` and hands the rest to
the capture group. -/
theorem matchP1Prefix_weekday {w : Str} (hw : w ≠ [])
    (hword : ∀ c ∈ w, isWordC c = true) {a : Char} (ha : isDigitC a = true)
    (cs : Str) :
    matchP1Prefix (w ++ ',' :: ' ' :: a :: cs) = matchBody (a :: cs) := by
  obtain ⟨htw, hdw⟩ := takeWhile_append_stop isWordC w ','
    (' ' :: a :: cs) hword (by decide)
  have hne : w.isEmpty = false := by
    cases w with
    | nil => exact absurd rfl hw
    | cons x xs => rfl
  unfold matchP1Prefix
  rw [htw, hdw]
  simp [hne, dropWs, show isSpaceC ' ' = true from by decide,
    List.dropWhile_cons, digit_not_space ha]

/-- **C3 counterexample.** `"31 Apr 2025 2025-04-14"` contains the ISO
date 2025-04-14, yet `extract_date` returns the sentinel: pattern 1
matches the impossible `"31 Apr 2025"` first and its parse failure ends
the function. -/
theorem extract_date_iso_clause_cx :
    searchISO (pstr "31 Apr 2025 2025-04-14")
      = some (pstr "2025", pstr "04", pstr "14") ∧
    parseIsoGroup (pstr "2025") (pstr "04") (pstr "14")
      = some ⟨2025, 4, 14⟩ ∧
    extract_date (pstr "31 Apr 2025 2025-04-14") = none := by decide

/-- **C3 (amended).** The Date Normalizer's behavior by input family:
1–2: a string starting with `<day> <mon> <year>` (1- or 2-digit day, month
a 3-word-char token that is a recognized C-locale abbreviation, 4-digit
year, arbitrary tail) parses to that calendar date when the triple is a
valid in-range date; 3–4: likewise with a `<weekday>, ` prefix of word
characters; 5: a string whose only digits form a `YYYY-MM-DD` substring
(digit-free before and after) parses to that date when valid and in
range; 6: when neither pattern matches anywhere, the result is the
sentinel.  (Pattern-1 matches that fail to parse also yield the sentinel,
even when a valid ISO date is present — see the counterexample and C9.) -/
theorem extract_date_families :
    (∀ (a m1 m2 m3 y1 y2 y3 y4 : Char) (rest : Str) (m : Nat),
      isDigitC a = true →
      isWordC m1 = true → isWordC m2 = true → isWordC m3 = true →
      isDigitC y1 = true → isDigitC y2 = true → isDigitC y3 = true →
      isDigitC y4 = true →
      monthFromAbbrev [m1, m2, m3] = some m →
      validYMD (natOfDigits [y1, y2, y3, y4]) m (natOfDigits [a]) = true →
      inBounds ⟨natOfDigits [y1, y2, y3, y4], m, natOfDigits [a]⟩ = true →
      extract_date (a :: ' ' :: m1 :: m2 :: m3 :: ' '
          :: y1 :: y2 :: y3 :: y4 :: rest)
        = some ⟨natOfDigits [y1, y2, y3, y4], m, natOfDigits [a]⟩) ∧
    (∀ (a b m1 m2 m3 y1 y2 y3 y4 : Char) (rest : Str) (m : Nat),
      isDigitC a = true → isDigitC b = true →
      isWordC m1 = true → isWordC m2 = true → isWordC m3 = true →
      isDigitC y1 = true → isDigitC y2 = true → isDigitC y3 = true →
      isDigitC y4 = true →
      monthFromAbbrev [m1, m2, m3] = some m →
      validYMD (natOfDigits [y1, y2, y3, y4]) m (natOfDigits [a, b]) = true →
      inBounds ⟨natOfDigits [y1, y2, y3, y4], m, natOfDigits [a, b]⟩ = true →
      extract_date (a :: b :: ' ' :: m1 :: m2 :: m3 :: ' '
          :: y1 :: y2 :: y3 :: y4 :: rest)
        = some ⟨natOfDigits [y1, y2, y3, y4], m, natOfDigits [a, b]⟩) ∧
    (∀ (w : Str) (a m1 m2 m3 y1 y2 y3 y4 : Char) (rest : Str) (m : Nat),
      w ≠ [] → (∀ c ∈ w, isWordC c = true) →
      isDigitC a = true →
      isWordC m1 = true → isWordC m2 = true → isWordC m3 = true →
      isDigitC y1 = true → isDigitC y2 = true → isDigitC y3 = true →
      isDigitC y4 = true →
      monthFromAbbrev [m1, m2, m3] = some m →
      validYMD (natOfDigits [y1, y2, y3, y4]) m (natOfDigits [a]) = true →
      inBounds ⟨natOfDigits [y1, y2, y3, y4], m, natOfDigits [a]⟩ = true →
      extract_date (w ++ ',' :: ' ' :: a :: ' ' :: m1 :: m2 :: m3 :: ' '
          :: y1 :: y2 :: y3 :: y4 :: rest)
        = some ⟨natOfDigits [y1, y2, y3, y4], m, natOfDigits [a]⟩) ∧
    (∀ (w : Str) (a b m1 m2 m3 y1 y2 y3 y4 : Char) (rest : Str) (m : Nat),
      w ≠ [] → (∀ c ∈ w, isWordC c = true) →
      isDigitC a = true → isDigitC b = true →
      isWordC m1 = true → isWordC m2 = true → isWordC m3 = true →
      isDigitC y1 = true → isDigitC y2 = true → isDigitC y3 = true →
      isDigitC y4 = true →
      monthFromAbbrev [m1, m2, m3] = some m →
      validYMD (natOfDigits [y1, y2, y3, y4]) m (natOfDigits [a, b]) = true →
      inBounds ⟨natOfDigits [y1, y2, y3, y4], m, natOfDigits [a, b]⟩ = true →
      extract_date (w ++ ',' :: ' ' :: a :: b :: ' ' :: m1 :: m2 :: m3 :: ' '
          :: y1 :: y2 :: y3 :: y4 :: rest)
        = some ⟨natOfDigits [y1, y2, y3, y4], m, natOfDigits [a, b]⟩) ∧
    (∀ (pre : Str) (y1 y2 y3 y4 p1 p2 q1 q2 : Char) (post : Str),
      (∀ c ∈ pre, isDigitC c = false) → (∀ c ∈ post, isDigitC c = false) →
      isDigitC y1 = true → isDigitC y2 = true → isDigitC y3 = true →
      isDigitC y4 = true → isDigitC p1 = true → isDigitC p2 = true →
      isDigitC q1 = true → isDigitC q2 = true →
      validYMD (natOfDigits [y1, y2, y3, y4]) (natOfDigits [p1, p2])
        (natOfDigits [q1, q2]) = true →
      inBounds ⟨natOfDigits [y1, y2, y3, y4], natOfDigits [p1, p2],
        natOfDigits [q1, q2]⟩ = true →
      extract_date (pre ++ y1 :: y2 :: y3 :: y4 :: '-' :: p1 :: p2 :: '-'
          :: q1 :: q2 :: post)
        = some ⟨natOfDigits [y1, y2, y3, y4], natOfDigits [p1, p2],
            natOfDigits [q1, q2]⟩) ∧
    (∀ s : Str, searchP1 s = none → searchISO s = none →
      extract_date s = none) := by
  refine ⟨?_, ?_, ?_, ?_, ?_, ?_⟩
  · intro a m1 m2 m3 y1 y2 y3 y4 rest m ha hm1 hm2 hm3 hy1 hy2 hy3 hy4
      hmon hval hbnd
    have hAt : matchP1At (a :: ' ' :: m1 :: m2 :: m3 :: ' '
        :: y1 :: y2 :: y3 :: y4 :: rest)
        = some ([a], [m1, m2, m3], [y1, y2, y3, y4]) := by
      simp [matchP1At, matchP1Prefix_day1_none ha,
        matchBody_rfc1 rest ha hm1 hm2 hm3 hy1 hy2 hy3 hy4]
    simp [extract_date, searchP1, hAt, parseRfcGroup, hmon, hval, hbnd]
  · intro a b m1 m2 m3 y1 y2 y3 y4 rest m ha hb hm1 hm2 hm3 hy1 hy2 hy3 hy4
      hmon hval hbnd
    have hAt : matchP1At (a :: b :: ' ' :: m1 :: m2 :: m3 :: ' '
        :: y1 :: y2 :: y3 :: y4 :: rest)
        = some ([a, b], [m1, m2, m3], [y1, y2, y3, y4]) := by
      simp [matchP1At, matchP1Prefix_day2_none ha hb,
        matchBody_rfc2 rest ha hb hm1 hm2 hm3 hy1 hy2 hy3 hy4]
    simp [extract_date, searchP1, hAt, parseRfcGroup, hmon, hval, hbnd]
  · intro w a m1 m2 m3 y1 y2 y3 y4 rest m hw hword ha hm1 hm2 hm3
      hy1 hy2 hy3 hy4 hmon hval hbnd
    have hAt : matchP1At (w ++ ',' :: ' ' :: a :: ' ' :: m1 :: m2 :: m3 :: ' '
        :: y1 :: y2 :: y3 :: y4 :: rest)
        = some ([a], [m1, m2, m3], [y1, y2, y3, y4]) := by
      simp [matchP1At, matchP1Prefix_weekday hw hword ha,
        matchBody_rfc1 rest ha hm1 hm2 hm3 hy1 hy2 hy3 hy4]
    obtain ⟨x, w2, rfl⟩ := List.exists_cons_of_ne_nil hw
    have hAt2 : matchP1At (x :: (w2 ++ ',' :: ' ' :: a :: ' '
        :: m1 :: m2 :: m3 :: ' ' :: y1 :: y2 :: y3 :: y4 :: rest))
        = some ([a], [m1, m2, m3], [y1, y2, y3, y4]) := by
      simpa [List.cons_append] using hAt
    have hS : searchP1 (x :: (w2 ++ ',' :: ' ' :: a :: ' '
        :: m1 :: m2 :: m3 :: ' ' :: y1 :: y2 :: y3 :: y4 :: rest))
        = some ([a], [m1, m2, m3], [y1, y2, y3, y4]) := by
      simp [searchP1, hAt2]
    simp [extract_date, List.cons_append, hS, parseRfcGroup, hmon, hval, hbnd]
  · intro w a b m1 m2 m3 y1 y2 y3 y4 rest m hw hword ha hb hm1 hm2 hm3
      hy1 hy2 hy3 hy4 hmon hval hbnd
    have hAt : matchP1At (w ++ ',' :: ' ' :: a :: b :: ' '
        :: m1 :: m2 :: m3 :: ' ' :: y1 :: y2 :: y3 :: y4 :: rest)
        = some ([a, b], [m1, m2, m3], [y1, y2, y3, y4]) := by
      simp [matchP1At, matchP1Prefix_weekday hw hword ha,
        matchBody_rfc2 rest ha hb hm1 hm2 hm3 hy1 hy2 hy3 hy4]
    obtain ⟨x, w2, rfl⟩ := List.exists_cons_of_ne_nil hw
    have hAt2 : matchP1At (x :: (w2 ++ ',' :: ' ' :: a :: b :: ' '
        :: m1 :: m2 :: m3 :: ' ' :: y1 :: y2 :: y3 :: y4 :: rest))
        = some ([a, b], [m1, m2, m3], [y1, y2, y3, y4]) := by
      simpa [List.cons_append] using hAt
    have hS : searchP1 (x :: (w2 ++ ',' :: ' ' :: a :: b :: ' '
        :: m1 :: m2 :: m3 :: ' ' :: y1 :: y2 :: y3 :: y4 :: rest))
        = some ([a, b], [m1, m2, m3], [y1, y2, y3, y4]) := by
      simp [searchP1, hAt2]
    simp [extract_date, List.cons_append, hS, parseRfcGroup, hmon, hval, hbnd]
  · intro pre y1 y2 y3 y4 p1 p2 q1 q2 post hpre hpost hy1 hy2 hy3 hy4
      hp1 hp2 hq1 hq2 hval hbnd
    have hB := matchBody_none_append pre hpre _
      (matchBody_none_iso_suffix hy1 hy2 hy3 hy4 hp1 hp2 hq1 hq2 hpost)
    have hP1 : searchP1 (pre ++ y1 :: y2 :: y3 :: y4 :: '-' :: p1 :: p2
        :: '-' :: q1 :: q2 :: post) = none := searchP1_none_of _ hB
    have hISO : searchISO (pre ++ y1 :: y2 :: y3 :: y4 :: '-' :: p1 :: p2
        :: '-' :: q1 :: q2 :: post)
        = some ([y1, y2, y3, y4], [p1, p2], [q1, q2]) := by
      rw [searchISO_append_nodigit pre _ hpre]
      exact searchISO_iso_head post hy1 hy2 hy3 hy4 hp1 hp2 hq1 hq2
    simp [extract_date, hP1, hISO, parseIsoGroup, hval, hbnd]
  · intro s h1 h2
    simp [extract_date, h1, h2]

/-- Witness for the amended C3 at concrete inputs from each family. -/
theorem extract_date_families_witness :
    extract_date (pstr "4 Apr 2025 10:00:00 GMT") = some ⟨2025, 4, 4⟩ ∧
    extract_date (pstr "Mon, 14 Apr 2025 10:00:00 GMT")
      = some ⟨2025, 4, 14⟩ ∧
    extract_date (pstr "date: 2025-04-14 (updated)")
      = some ⟨2025, 4, 14⟩ ∧
    extract_date (pstr "sometime last week") = none := by
  refine ⟨?_, ?_, ?_, ?_⟩
  · have h := extract_date_families.1 '4' 'A' 'p' 'r' '2' '0' '2' '5'
      (pstr " 10:00:00 GMT") 4 (by decide) (by decide) (by decide) (by decide)
      (by decide) (by decide) (by decide) (by decide) (by decide) (by decide)
      (by decide)
    exact h.trans (by decide)
  · have h := extract_date_families.2.2.2.1 (pstr "Mon") '1' '4' 'A' 'p' 'r'
      '2' '0' '2' '5' (pstr " 10:00:00 GMT") 4 (by decide) (by decide)
      (by decide) (by decide) (by decide) (by decide) (by decide) (by decide)
      (by decide) (by decide) (by decide) (by decide) (by decide) (by decide)
    exact h.trans (by decide)
  · have h := extract_date_families.2.2.2.2.1 (pstr "date: ") '2' '0' '2' '5'
      '0' '4' '1' '4' (pstr " (updated)") (by decide) (by decide)
      (by decide) (by decide) (by decide) (by decide) (by decide) (by decide)
      (by decide) (by decide) (by decide) (by decide)
    exact h.trans (by decide)
  · exact extract_date_families.2.2.2.2.2 _ (by decide) (by decide)
